import Mathlib

/-!
Verification of `scripts/seed_cache.py` (ctod cache seeding script).

This file gives a shallow embedding of the seeding script and proves the
specification's claims about it.  Pure helpers (`interleave_bits`,
`generate_z_order_grid`) become Lean functions on `Nat`; the asynchronous
orchestration (`generate_tile`, `generate_level`, `seed_cache`) becomes
explicit state passing over a `SeedState` record that logs every observable
effect (cache probes, HTTP requests, disk persists, log lines, batch
gathers, completion-future sets).  Exceptions escaping a coroutine are
modelled by an `Option RunError` component of each result.
-/

/-! ### Z-order curve: `interleave_bits` and `generate_z_order_grid` -/

/-- One iteration of the `for i in range(32)` loop body of `interleave_bits`:
`z |= (x & 1 << i) << i | (y & 1 << i) << (i + 1)`. -/
def interleaveStep (x y z i : Nat) : Nat :=
  z ||| (((x &&& (1 <<< i)) <<< i) ||| ((y &&& (1 <<< i)) <<< (i + 1)))

/-- `interleave_bits(x, y)` from the script: interleave the bits of `x` and
`y` (x's bit `i` goes to position `2*i`, y's bit `i` to position `2*i+1`),
looping over the low 32 bits. -/
def interleave_bits (x y : Nat) : Nat :=
  (List.range 32).foldl (interleaveStep x y) 0

/-- Recursive presentation of the loop: after `n` iterations. -/
def interleaveAux (x y : Nat) : Nat → Nat
  | 0 => 0
  | n + 1 => interleaveStep x y (interleaveAux x y n) n

theorem interleave_bits_eq_aux (x y : Nat) :
    interleave_bits x y = interleaveAux x y 32 := by
  have h : ∀ n, (List.range n).foldl (interleaveStep x y) 0 = interleaveAux x y n := by
    intro n
    induction n with
    | zero => rfl
    | succ n ih =>
      rw [List.range_succ, List.foldl_append, ih]
      rfl
  exact h 32

theorem testBit_interleaveStep (x y z i j : Nat) :
    (interleaveStep x y z i).testBit j =
      (z.testBit j || (decide (j = 2 * i) && x.testBit i)
        || (decide (j = 2 * i + 1) && y.testBit i)) := by
  unfold interleaveStep
  simp only [Nat.testBit_or, Nat.testBit_shiftLeft, Nat.testBit_and,
    Nat.one_shiftLeft, Nat.testBit_two_pow]
  by_cases h1 : j = 2 * i
  · subst h1
    have hle : i ≤ 2 * i := by omega
    have h2 : 2 * i - i = i := by omega
    have h3 : ¬ (i + 1 ≤ 2 * i ∧ i = 2 * i - (i + 1)) := by omega
    by_cases h4 : i + 1 ≤ 2 * i
    · have h5 : i ≠ 2 * i - (i + 1) := by omega
      simp [hle, h2, h4, h5]
    · simp [hle, h2, h4]
  · by_cases h2 : j = 2 * i + 1
    · subst h2
      have hle : i + 1 ≤ 2 * i + 1 := by omega
      have h3 : 2 * i + 1 - (i + 1) = i := by omega
      have h4 : i ≤ 2 * i + 1 := by omega
      have h5 : i ≠ 2 * i + 1 - i := by omega
      simp [hle, h3, h4, h5, h1]
    · by_cases h3 : i ≤ j
      · have h4 : i ≠ j - i := by omega
        by_cases h5 : i + 1 ≤ j
        · have h6 : i ≠ j - (i + 1) := by omega
          simp [h1, h2, h3, h4, h5, h6]
        · simp [h1, h2, h3, h4, h5]
      · have h5 : ¬ (i + 1 ≤ j) := by omega
        simp [h1, h2, h3, h5]

theorem testBit_interleaveAux_even (x y : Nat) (n i : Nat) :
    (interleaveAux x y n).testBit (2 * i) = (decide (i < n) && x.testBit i) := by
  induction n with
  | zero => simp [interleaveAux]
  | succ n ih =>
    rw [interleaveAux, testBit_interleaveStep, ih]
    by_cases h1 : i = n
    · subst h1
      have h2 : ¬ (2 * i = 2 * i + 1) := by omega
      simp [h2, Nat.lt_irrefl]
    · have h2 : 2 * i ≠ 2 * n := by omega
      have h3 : 2 * i ≠ 2 * n + 1 := by omega
      have h4 : (i < n + 1) = (i < n) := by
        apply propext; omega
      simp [h2, h3, h4]

theorem testBit_interleaveAux_odd (x y : Nat) (n i : Nat) :
    (interleaveAux x y n).testBit (2 * i + 1) = (decide (i < n) && y.testBit i) := by
  induction n with
  | zero => simp [interleaveAux]
  | succ n ih =>
    rw [interleaveAux, testBit_interleaveStep, ih]
    by_cases h1 : i = n
    · subst h1
      have h2 : ¬ (2 * i + 1 = 2 * i) := by omega
      simp [h2, Nat.lt_irrefl]
    · have h2 : 2 * i + 1 ≠ 2 * n := by omega
      have h3 : 2 * i + 1 ≠ 2 * n + 1 := by omega
      have h4 : (i < n + 1) = (i < n) := by
        apply propext; omega
      simp [h2, h3, h4]

theorem testBit_interleave_even (x y i : Nat) (h : i < 32) :
    (interleave_bits x y).testBit (2 * i) = x.testBit i := by
  rw [interleave_bits_eq_aux, testBit_interleaveAux_even]
  simp [h]

theorem testBit_interleave_odd (x y i : Nat) (h : i < 32) :
    (interleave_bits x y).testBit (2 * i + 1) = y.testBit i := by
  rw [interleave_bits_eq_aux, testBit_interleaveAux_odd]
  simp [h]

theorem testBit_high_of_lt_two_pow {v : Nat} (hv : v < 2 ^ 32) {i : Nat} (hi : 32 ≤ i) :
    v.testBit i = false := by
  apply Nat.testBit_lt_two_pow
  calc v < 2 ^ 32 := hv
    _ ≤ 2 ^ i := Nat.pow_le_pow_right (by omega) hi

/-- `interleave_bits` is injective on pairs of 32-bit values. -/
theorem interleave_bits_injective {x y x' y' : Nat}
    (hx : x < 2 ^ 32) (hy : y < 2 ^ 32) (hx' : x' < 2 ^ 32) (hy' : y' < 2 ^ 32)
    (h : interleave_bits x y = interleave_bits x' y') : x = x' ∧ y = y' := by
  constructor
  · apply Nat.eq_of_testBit_eq
    intro i
    by_cases hi : i < 32
    · rw [← testBit_interleave_even x y i hi, ← testBit_interleave_even x' y' i hi, h]
    · rw [testBit_high_of_lt_two_pow hx (by omega), testBit_high_of_lt_two_pow hx' (by omega)]
  · apply Nat.eq_of_testBit_eq
    intro i
    by_cases hi : i < 32
    · rw [← testBit_interleave_odd x y i hi, ← testBit_interleave_odd x' y' i hi, h]
    · rw [testBit_high_of_lt_two_pow hy (by omega), testBit_high_of_lt_two_pow hy' (by omega)]

/-- The sort key used by `generate_z_order_grid`:
`key=lambda point: interleave_bits(point[0], point[1])`. -/
def zKey (p : Nat × Nat) : Nat := interleave_bits p.1 p.2

/-- Comparison relation of the sort: ordered by interleaved-bit code. -/
def zLe (p q : Nat × Nat) : Prop := zKey p ≤ zKey q

instance : DecidableRel zLe := fun _ _ => Nat.decLe _ _

/-- `generate_z_order_grid(x_range, y_range)`: the cartesian-product grid
`[(x, y) for x in x_range for y in y_range]`, sorted (stable, by key) on
the interleaved-bit code.  Python's `list.sort` is a stable sort by key,
embedded here with the stable `List.insertionSort`. -/
def generate_z_order_grid (x_range y_range : List Nat) : List (Nat × Nat) :=
  List.insertionSort zLe (x_range.flatMap fun x => y_range.map fun y => (x, y))

instance : IsTotal (Nat × Nat) zLe := ⟨fun p q => Nat.le_total (zKey p) (zKey q)⟩

instance : IsTrans (Nat × Nat) zLe := ⟨fun _ _ _ => Nat.le_trans⟩

theorem zKey_ne_of_ne {A B : Nat × Nat} (hA1 : A.1 < 2 ^ 32) (hA2 : A.2 < 2 ^ 32)
    (hB1 : B.1 < 2 ^ 32) (hB2 : B.2 < 2 ^ 32) (hne : A ≠ B) : zKey A ≠ zKey B := by
  intro h
  obtain ⟨h1, h2⟩ := interleave_bits_injective hA1 hA2 hB1 hB2 h
  exact hne (Prod.ext h1 h2)

theorem mem_generate_z_order_grid {xr yr : List Nat} {p : Nat × Nat} :
    p ∈ generate_z_order_grid xr yr ↔ p.1 ∈ xr ∧ p.2 ∈ yr := by
  rw [generate_z_order_grid, List.mem_insertionSort]
  show p ∈ xr.product yr ↔ _
  obtain ⟨a, b⟩ := p
  exact List.mem_product

/-- **C5**: Traversal completeness and uniqueness — for an x-range of width
`W = xr.length` and a y-range of height `H = yr.length` (ranges have no
duplicates), `generate_z_order_grid` produces exactly `W * H` coordinates,
every coordinate of the rectangle appears exactly once (no duplicates in the
output, and membership in the output is exactly membership in the
rectangle), and nothing outside the rectangle appears. -/
theorem c5_traversal_completeness (xr yr : List Nat) (hx : xr.Nodup) (hy : yr.Nodup) :
    (generate_z_order_grid xr yr).length = xr.length * yr.length ∧
    (generate_z_order_grid xr yr).Nodup ∧
    ∀ p : Nat × Nat, p ∈ generate_z_order_grid xr yr ↔ p.1 ∈ xr ∧ p.2 ∈ yr := by
  have hperm := List.perm_insertionSort zLe (xr.flatMap fun x => yr.map fun y => (x, y))
  refine ⟨?_, ?_, fun p => mem_generate_z_order_grid⟩
  · rw [generate_z_order_grid, hperm.length_eq]
    exact List.length_product xr yr
  · rw [generate_z_order_grid, hperm.nodup_iff]
    exact hx.product hy

/-- Closed instantiation of `c5_traversal_completeness` at the 2×2 rectangle. -/
theorem c5_traversal_completeness_witness :
    ([0, 1].Nodup ∧ [0, 1].Nodup) ∧
    ((generate_z_order_grid [0, 1] [0, 1]).length = [0, 1].length * [0, 1].length ∧
      (generate_z_order_grid [0, 1] [0, 1]).Nodup ∧
      ∀ p : Nat × Nat, p ∈ generate_z_order_grid [0, 1] [0, 1] ↔ p.1 ∈ [0, 1] ∧ p.2 ∈ [0, 1]) :=
  ⟨⟨by decide, by decide⟩, c5_traversal_completeness [0, 1] [0, 1] (by decide) (by decide)⟩

/-- **C6**: Z-order correctness — for distinct coordinates `A`, `B` of the
rectangle (components below `2^32`), `A` precedes `B` in the traversal iff
the interleaved code of `A` is smaller; the interleaved code places x's bit
`i` at position `2*i` and y's bit `i` at position `2*i+1`; and for
`x, y ∈ {0,1,2,3}` the traversal begins
`(0,0),(1,0),(0,1),(1,1),(2,0),(3,0),(2,1),(3,1),(0,2)`. -/
theorem c6_z_order_correctness (xr yr : List Nat)
    (hx32 : ∀ v ∈ xr, v < 2 ^ 32) (hy32 : ∀ v ∈ yr, v < 2 ^ 32) :
    (∀ i j : Fin (generate_z_order_grid xr yr).length,
        (generate_z_order_grid xr yr).get i ≠ (generate_z_order_grid xr yr).get j →
        (i < j ↔
          interleave_bits ((generate_z_order_grid xr yr).get i).1
              ((generate_z_order_grid xr yr).get i).2 <
            interleave_bits ((generate_z_order_grid xr yr).get j).1
              ((generate_z_order_grid xr yr).get j).2)) ∧
    (∀ x y i : Nat, i < 32 →
        (interleave_bits x y).testBit (2 * i) = x.testBit i ∧
        (interleave_bits x y).testBit (2 * i + 1) = y.testBit i) ∧
    (generate_z_order_grid [0, 1, 2, 3] [0, 1, 2, 3]).take 9 =
      [(0, 0), (1, 0), (0, 1), (1, 1), (2, 0), (3, 0), (2, 1), (3, 1), (0, 2)] := by
  refine ⟨?_, fun x y i hi => ⟨testBit_interleave_even x y i hi, testBit_interleave_odd x y i hi⟩,
    by decide⟩
  intro i j hne
  have hsorted : (generate_z_order_grid xr yr).Sorted zLe := by
    rw [generate_z_order_grid]
    exact List.sorted_insertionSort zLe _
  have hboundsA := mem_generate_z_order_grid.mp ((generate_z_order_grid xr yr).get_mem i.1 i.2)
  have hboundsB := mem_generate_z_order_grid.mp ((generate_z_order_grid xr yr).get_mem j.1 j.2)
  have hkey : zKey ((generate_z_order_grid xr yr).get i) ≠
      zKey ((generate_z_order_grid xr yr).get j) :=
    zKey_ne_of_ne (hx32 _ hboundsA.1) (hy32 _ hboundsA.2)
      (hx32 _ hboundsB.1) (hy32 _ hboundsB.2) hne
  constructor
  · intro hlt
    exact Nat.lt_of_le_of_ne (hsorted.rel_get_of_lt hlt) hkey
  · intro hz
    rcases lt_trichotomy i j with h | h | h
    · exact h
    · exact absurd (congrArg _ h) hne
    · exact absurd (hsorted.rel_get_of_lt h) (Nat.not_le_of_lt hz)

/-- Closed instantiation of `c6_z_order_correctness` at the 4×4 rectangle. -/
theorem c6_z_order_correctness_witness :
    ((∀ v ∈ [0, 1, 2, 3], v < 2 ^ 32) ∧ (∀ v ∈ [0, 1, 2, 3], v < 2 ^ 32)) ∧
    ((∀ i j : Fin (generate_z_order_grid [0, 1, 2, 3] [0, 1, 2, 3]).length,
        (generate_z_order_grid [0, 1, 2, 3] [0, 1, 2, 3]).get i ≠
          (generate_z_order_grid [0, 1, 2, 3] [0, 1, 2, 3]).get j →
        (i < j ↔
          interleave_bits ((generate_z_order_grid [0, 1, 2, 3] [0, 1, 2, 3]).get i).1
              ((generate_z_order_grid [0, 1, 2, 3] [0, 1, 2, 3]).get i).2 <
            interleave_bits ((generate_z_order_grid [0, 1, 2, 3] [0, 1, 2, 3]).get j).1
              ((generate_z_order_grid [0, 1, 2, 3] [0, 1, 2, 3]).get j).2)) ∧
      (∀ x y i : Nat, i < 32 →
        (interleave_bits x y).testBit (2 * i) = x.testBit i ∧
        (interleave_bits x y).testBit (2 * i + 1) = y.testBit i) ∧
      (generate_z_order_grid [0, 1, 2, 3] [0, 1, 2, 3]).take 9 =
        [(0, 0), (1, 0), (0, 1), (1, 1), (2, 0), (3, 0), (2, 1), (3, 1), (0, 2)]) :=
  ⟨⟨by decide, by decide⟩,
    c6_z_order_correctness [0, 1, 2, 3] [0, 1, 2, 3] (by decide) (by decide)⟩

/-! ### The seeding pipeline: state, environment, and operations -/

/-- The key under which `get_tile_from_disk` / `save_tile_to_disk` address a
tile: (output root, dataset reference, meshing method, zoom, x, y).  The row
index is an `Int` because the script computes it with Python integer
subtraction (`tms_y_max - y`). -/
structure TileKey where
  output : String
  input : String
  meshing : String
  z : Nat
  x : Nat
  y : Int
deriving DecidableEq

/-- Tile payload bytes. -/
abbrev TileBody := List Nat

/-- The on-disk cache contents. -/
abbrev Store := List (TileKey × TileBody)

/-- Modelled from the spec: the cache store contract (§6) consumed by the
script — `probe(key) -> bytes | absent` — since `ctod.core.tile_cache.
get_tile_from_disk` is outside the sources; the store is keyed exactly by
the fields passed in (output root, dataset reference, meshing method, zoom,
x, y). -/
def Store.probe (s : Store) (k : TileKey) : Option TileBody :=
  (s.find? fun p => decide (p.1 = k)).map (·.2)

/-- Modelled from the spec: the cache store contract (§6) consumed by the
script — `persist(key, bytes)` (`ctod.core.tile_cache.save_tile_to_disk` is
outside the sources); one key maps to at most one stored artifact. -/
def Store.persist (s : Store) (k : TileKey) (b : TileBody) : Store :=
  (k, b) :: s.filter fun p => decide (p.1 ≠ k)

/-- One HTTP GET issued to the generation service's tile endpoint, carrying
everything `generate_tile` encodes into the request URL. -/
structure TileRequest where
  port : Nat
  z : Nat
  x : Nat
  y : Nat
  cog : String
  meshingMethod : String
  params : Option String
deriving DecidableEq

/-- Result of reading the response body (`response.read()` can raise; the
exception is caught by the `try`/`except` in `generate_tile`). -/
inductive BodyRead where
  | ok (body : TileBody)
  | readError
deriving DecidableEq

/-- Result of `session.get(...)`: either the connection fails (an exception
raised before the `try` block of `generate_tile` is entered) or a response
with a status code arrives. -/
inductive HttpResult where
  | connectError
  | response (status : Nat) (body : BodyRead)
deriving DecidableEq

/-- One entry of `layer_json["available"]`: the first (and only used) info
record of a zoom level, giving the valid tile index rectangle. -/
structure ZoomRangeInfo where
  startX : Nat
  endX : Nat
  startY : Nat
  endY : Nat
deriving DecidableEq

/-- The layer descriptor: `available` indexed by zoom level. -/
structure LayerJson where
  available : List ZoomRangeInfo
deriving DecidableEq

/-- Exceptions escaping the embedded coroutines. -/
inductive RunError where
  | sysExit (code : Nat)
  | descriptorUnavailable
  | zoomIndexError (zoom : Nat)
  | transport (r : TileRequest)
deriving DecidableEq

/-- Log lines relevant to the claims. -/
inductive LogEvent where
  | cacheFolderFailed
  | tileStatusError (x y z status : Nat)
  | tileReadError (x y z : Nat)
deriving DecidableEq

/-- The external world: the generation service's HTTP behaviour, the
`server.should_exit` flag as sampled at its n-th read, the file system
answers for the cache folder, the layer-descriptor resolution, and
`tms.minmax(zoom)["y"]["max"]`. -/
structure Env where
  http : TileRequest → HttpResult
  shouldExit : Nat → Bool
  cacheFolderExists : Bool
  mkdirOk : Bool
  layer : Option LayerJson
  tmsYMax : Nat → Nat

/-- The script's configuration (CLI arguments of one seeding job). -/
structure JobConfig where
  input : String
  output : String
  meshing : String
  params : Option String
  zoomLevels : List Nat
  overwrite : Bool
  port : Nat
  requestCount : Nat

/-- Observable effects of a run: the store plus append-only logs of every
probe, HTTP request, persist, log line and batch gather, the number of
`should_exit` reads, the number of layer-descriptor resolutions, and the
number of `done_future.set_result` calls. -/
structure SeedState where
  store : Store
  probes : List TileKey
  requests : List TileRequest
  persists : List (TileKey × TileBody)
  logs : List LogEvent
  gathers : List (List (Nat × Nat))
  checks : Nat
  layerCalls : Nat
  futureSets : Nat
deriving DecidableEq

/-- Fresh state over a given initial on-disk cache; the completion future
(`done_future = Future()`) starts unset. -/
def initState (store : Store) : SeedState :=
  { store := store, probes := [], requests := [], persists := [], logs := [],
    gathers := [], checks := 0, layerCalls := 0, futureSets := 0 }

/-- The cache key built from the arguments `generate_tile` passes to the
disk-cache functions. -/
def tileKey (cfg : JobConfig) (z x : Nat) (y : Int) : TileKey :=
  { output := cfg.output, input := cfg.input, meshing := cfg.meshing, z := z, x := x, y := y }

/-- The request URL contents of `generate_tile`: zoom/x/y path, `cog`,
`skipCache=true`, `meshingMethod`, optional extra params appended. -/
def mkRequest (cfg : JobConfig) (z x y : Nat) : TileRequest :=
  { port := cfg.port, z := z, x := x, y := y, cog := cfg.input,
    meshingMethod := cfg.meshing, params := cfg.params }

/-- The fetch part of `generate_tile` (everything after the skip check):
issue the GET; a connection failure escapes as an exception (it is raised
outside the `try`); on status 200 read the body (a read failure is caught
and logged), flip the row index (`y = tms_y_max - y`) and persist; on any
other status log and return. -/
def fetchTile (env : Env) (cfg : JobConfig) (tmsYMax x y z : Nat) (st : SeedState) :
    SeedState × Option RunError :=
  let req := mkRequest cfg z x y
  let st1 := { st with requests := st.requests ++ [req] }
  match env.http req with
  | .connectError => (st1, some (.transport req))
  | .response status body =>
    if status = 200 then
      match body with
      | .ok tileData =>
        let k := tileKey cfg z x ((tmsYMax : Int) - (y : Int))
        ({ st1 with store := st1.store.persist k tileData,
                    persists := st1.persists ++ [(k, tileData)] }, none)
      | .readError =>
        ({ st1 with logs := st1.logs ++ [.tileReadError x y z] }, none)
    else
      ({ st1 with logs := st1.logs ++ [.tileStatusError x y z status] }, none)

/-- `generate_tile`: unless `overwrite` is set, probe the disk cache under
(output, input, meshing, z, x, y) and return immediately on a hit;
otherwise fetch. -/
def generate_tile (env : Env) (cfg : JobConfig) (tmsYMax x y z : Nat) (st : SeedState) :
    SeedState × Option RunError :=
  if cfg.overwrite then fetchTile env cfg tmsYMax x y z st
  else
    let k := tileKey cfg z x (y : Int)
    let st1 := { st with probes := st.probes ++ [k] }
    match st1.store.probe k with
    | some _ => (st1, none)
    | none => fetchTile env cfg tmsYMax x y z st1

/-- Run the tasks handed to one `asyncio.gather` call: every task executes
(its effects happen), and the first exception, if any, is kept to be
re-raised by the gather. -/
def gatherTasks (env : Env) (cfg : JobConfig) (tmsYMax z : Nat) :
    List (Nat × Nat) → SeedState × Option RunError → SeedState × Option RunError
  | [], acc => acc
  | c :: rest, acc =>
    let r := generate_tile env cfg tmsYMax c.1 c.2 z acc.1
    gatherTasks env cfg tmsYMax z rest (r.1, acc.2 <|> r.2)

/-- `await asyncio.gather(*tasks)` over one batch of tile tasks; the batch
is recorded in the `gathers` trace. -/
def runBatch (env : Env) (cfg : JobConfig) (tmsYMax z : Nat) (batch : List (Nat × Nat))
    (st : SeedState) : SeedState × Option RunError :=
  gatherTasks env cfg tmsYMax z batch ({ st with gathers := st.gathers ++ [batch] }, none)

/-- The `for x, y in morton_order` loop of `generate_level`, carrying the
pending `tasks` list: check `server.should_exit` (break on stop, then gather
what is pending), else append a task and gather once `request_count` tasks
are pending; after the loop, gather the final partial batch. -/
def levelLoop (env : Env) (cfg : JobConfig) (tmsYMax z : Nat) :
    List (Nat × Nat) → List (Nat × Nat) → SeedState → SeedState × Option RunError
  | [], tasks, st =>
    if tasks.isEmpty then (st, none) else runBatch env cfg tmsYMax z tasks st
  | c :: rest, tasks, st =>
    if env.shouldExit st.checks then
      let st1 := { st with checks := st.checks + 1 }
      if tasks.isEmpty then (st1, none) else runBatch env cfg tmsYMax z tasks st1
    else
      let st1 := { st with checks := st.checks + 1 }
      let tasks1 := tasks ++ [c]
      if cfg.requestCount ≤ tasks1.length then
        match runBatch env cfg tmsYMax z tasks1 st1 with
        | (st2, none) => levelLoop env cfg tmsYMax z rest [] st2
        | (st2, some e) => (st2, some e)
      else levelLoop env cfg tmsYMax z rest tasks1 st1

/-- `get_tile_range(layer_json, zoom)` as the info record of the zoom, if
present (`layer_json["available"][zoom][0]` raises an index error when the
zoom is absent). -/
def get_tile_range (layer : LayerJson) (zoom : Nat) : Option ZoomRangeInfo :=
  layer.available[zoom]?

/-- `generate_level`: derive the tile rectangle and `tms_y_max` for the
zoom, build the Z-order traversal over
`range(startX, endX + 1) × range(startY, endY + 1)`, and drive the batched
fetch loop. -/
def generate_level (env : Env) (cfg : JobConfig) (layer : LayerJson) (zoom : Nat)
    (st : SeedState) : SeedState × Option RunError :=
  match get_tile_range layer zoom with
  | none => (st, some (.zoomIndexError zoom))
  | some info =>
    let tmsYMax := env.tmsYMax zoom
    let xr := List.range' info.startX (info.endX + 1 - info.startX)
    let yr := List.range' info.startY (info.endY + 1 - info.startY)
    levelLoop env cfg tmsYMax zoom (generate_z_order_grid xr yr) [] st

/-- `create_cache_folder`: nothing to do when the folder exists; otherwise
`os.makedirs`, and on failure log and `sys.exit(1)`. -/
def create_cache_folder (env : Env) (st : SeedState) : SeedState × Option RunError :=
  if env.cacheFolderExists then (st, none)
  else if env.mkdirOk then (st, none)
  else ({ st with logs := st.logs ++ [.cacheFolderFailed] }, some (.sysExit 1))

/-- The `for zoom in zoom_levels` loop of `seed_cache`: break when
`server.should_exit` is set, else generate the level (an exception escaping
a level aborts the loop). -/
def zoomLoop (env : Env) (cfg : JobConfig) (layer : LayerJson) :
    List Nat → SeedState → SeedState × Option RunError
  | [], st => (st, none)
  | zoom :: rest, st =>
    if env.shouldExit st.checks then ({ st with checks := st.checks + 1 }, none)
    else
      let st1 := { st with checks := st.checks + 1 }
      match generate_level env cfg layer zoom st1 with
      | (st2, none) => zoomLoop env cfg layer rest st2
      | (st2, some e) => (st2, some e)

/-- `seed_cache`: ensure the cache folder, resolve the layer descriptor
(`get_layer_json`, counted in `layerCalls`; a failure raises), run the zoom
loop, then set `done_future` (its one and only `set_result` call). -/
def seed_cache (env : Env) (cfg : JobConfig) (st : SeedState) :
    SeedState × Option RunError :=
  match create_cache_folder env st with
  | (st1, some e) => (st1, some e)
  | (st1, none) =>
    match env.layer with
    | none => ({ st1 with layerCalls := st1.layerCalls + 1 }, some .descriptorUnavailable)
    | some layer =>
      match zoomLoop env cfg layer cfg.zoomLevels
          { st1 with layerCalls := st1.layerCalls + 1 } with
      | (st3, some e) => (st3, some e)
      | (st3, none) => ({ st3 with futureSets := st3.futureSets + 1 }, none)

/-! ### Helper lemmas about the pipeline -/

theorem fetchTile_fields (env : Env) (cfg : JobConfig) (tmsYMax x y z : Nat) (st : SeedState) :
    (fetchTile env cfg tmsYMax x y z st).1.probes = st.probes ∧
    (fetchTile env cfg tmsYMax x y z st).1.requests = st.requests ++ [mkRequest cfg z x y] ∧
    (fetchTile env cfg tmsYMax x y z st).1.gathers = st.gathers ∧
    (fetchTile env cfg tmsYMax x y z st).1.checks = st.checks ∧
    (fetchTile env cfg tmsYMax x y z st).1.layerCalls = st.layerCalls ∧
    (fetchTile env cfg tmsYMax x y z st).1.futureSets = st.futureSets := by
  rw [fetchTile]
  cases env.http (mkRequest cfg z x y) with
  | connectError => exact ⟨rfl, rfl, rfl, rfl, rfl, rfl⟩
  | response status body =>
    by_cases hs : status = 200
    · cases body <;> simp [hs]
    · simp [hs]

theorem fetchTile_snd (env : Env) (cfg : JobConfig) (tmsYMax x y z : Nat) (st : SeedState)
    (hhttp : ∀ r, env.http r ≠ HttpResult.connectError) :
    (fetchTile env cfg tmsYMax x y z st).2 = none := by
  rw [fetchTile]
  cases h : env.http (mkRequest cfg z x y) with
  | connectError => exact absurd h (hhttp _)
  | response status body =>
    by_cases hs : status = 200
    · cases body <;> simp [hs]
    · simp [hs]

theorem generate_tile_fields (env : Env) (cfg : JobConfig) (tmsYMax x y z : Nat)
    (st : SeedState) :
    (generate_tile env cfg tmsYMax x y z st).1.gathers = st.gathers ∧
    (generate_tile env cfg tmsYMax x y z st).1.checks = st.checks ∧
    (generate_tile env cfg tmsYMax x y z st).1.layerCalls = st.layerCalls ∧
    (generate_tile env cfg tmsYMax x y z st).1.futureSets = st.futureSets := by
  rw [generate_tile]
  by_cases hov : cfg.overwrite
  · simp only [hov, if_true]
    have h := fetchTile_fields env cfg tmsYMax x y z st
    exact ⟨h.2.2.1, h.2.2.2.1, h.2.2.2.2.1, h.2.2.2.2.2⟩
  · simp only [hov, if_false]
    cases (({ st with probes := st.probes ++ [tileKey cfg z x (y : Int)] } :
        SeedState).store.probe (tileKey cfg z x (y : Int))) with
    | some b => exact ⟨rfl, rfl, rfl, rfl⟩
    | none =>
      have h := fetchTile_fields env cfg tmsYMax x y z
        { st with probes := st.probes ++ [tileKey cfg z x (y : Int)] }
      exact ⟨h.2.2.1, h.2.2.2.1, h.2.2.2.2.1, h.2.2.2.2.2⟩

theorem generate_tile_snd (env : Env) (cfg : JobConfig) (tmsYMax x y z : Nat) (st : SeedState)
    (hhttp : ∀ r, env.http r ≠ HttpResult.connectError) :
    (generate_tile env cfg tmsYMax x y z st).2 = none := by
  rw [generate_tile]
  by_cases hov : cfg.overwrite
  · simp only [hov, if_true]
    exact fetchTile_snd env cfg tmsYMax x y z st hhttp
  · simp only [hov, if_false]
    cases (({ st with probes := st.probes ++ [tileKey cfg z x (y : Int)] } :
        SeedState).store.probe (tileKey cfg z x (y : Int))) with
    | some b => rfl
    | none => exact fetchTile_snd env cfg tmsYMax x y z _ hhttp

theorem gatherTasks_gathers (env : Env) (cfg : JobConfig) (tmsYMax z : Nat) :
    ∀ (l : List (Nat × Nat)) (acc : SeedState × Option RunError),
      (gatherTasks env cfg tmsYMax z l acc).1.gathers = acc.1.gathers := by
  intro l
  induction l with
  | nil => intro acc; rfl
  | cons c rest ih =>
    intro acc
    rw [gatherTasks, ih]
    exact (generate_tile_fields env cfg tmsYMax c.1 c.2 z acc.1).1

theorem gatherTasks_futureSets (env : Env) (cfg : JobConfig) (tmsYMax z : Nat) :
    ∀ (l : List (Nat × Nat)) (acc : SeedState × Option RunError),
      (gatherTasks env cfg tmsYMax z l acc).1.futureSets = acc.1.futureSets := by
  intro l
  induction l with
  | nil => intro acc; rfl
  | cons c rest ih =>
    intro acc
    rw [gatherTasks, ih]
    exact (generate_tile_fields env cfg tmsYMax c.1 c.2 z acc.1).2.2.2

theorem gatherTasks_snd (env : Env) (cfg : JobConfig) (tmsYMax z : Nat)
    (hhttp : ∀ r, env.http r ≠ HttpResult.connectError) :
    ∀ (l : List (Nat × Nat)) (acc : SeedState × Option RunError), acc.2 = none →
      (gatherTasks env cfg tmsYMax z l acc).2 = none := by
  intro l
  induction l with
  | nil => intro acc h; exact h
  | cons c rest ih =>
    intro acc h
    rw [gatherTasks]
    apply ih
    rw [h, generate_tile_snd env cfg tmsYMax c.1 c.2 z acc.1 hhttp]
    rfl

theorem runBatch_gathers (env : Env) (cfg : JobConfig) (tmsYMax z : Nat)
    (batch : List (Nat × Nat)) (st : SeedState) :
    (runBatch env cfg tmsYMax z batch st).1.gathers = st.gathers ++ [batch] := by
  rw [runBatch, gatherTasks_gathers]

theorem runBatch_futureSets (env : Env) (cfg : JobConfig) (tmsYMax z : Nat)
    (batch : List (Nat × Nat)) (st : SeedState) :
    (runBatch env cfg tmsYMax z batch st).1.futureSets = st.futureSets := by
  rw [runBatch, gatherTasks_futureSets]

theorem runBatch_snd (env : Env) (cfg : JobConfig) (tmsYMax z : Nat)
    (batch : List (Nat × Nat)) (st : SeedState)
    (hhttp : ∀ r, env.http r ≠ HttpResult.connectError) :
    (runBatch env cfg tmsYMax z batch st).2 = none := by
  rw [runBatch]
  exact gatherTasks_snd env cfg tmsYMax z hhttp batch _ rfl

/-! ### Claims about `generate_tile` -/

/-- **C7**: Skip-if-cached versus overwrite — with `overwrite = false`,
`generate_tile` first probes the store and, on a hit, returns at once
(state unchanged except for the recorded probe: no HTTP request, no
persist); with `overwrite = true`, no probe is made and the HTTP request is
issued regardless of the prior cache contents. -/
theorem c7_skip_vs_overwrite (env : Env) (cfg : JobConfig) (tmsYMax x y z : Nat)
    (st : SeedState) :
    (cfg.overwrite = false → ∀ b, st.store.probe (tileKey cfg z x (y : Int)) = some b →
      generate_tile env cfg tmsYMax x y z st =
        ({ st with probes := st.probes ++ [tileKey cfg z x (y : Int)] }, none)) ∧
    (cfg.overwrite = true →
      (generate_tile env cfg tmsYMax x y z st).1.probes = st.probes ∧
      (generate_tile env cfg tmsYMax x y z st).1.requests =
        st.requests ++ [mkRequest cfg z x y]) := by
  constructor
  · intro hov b hhit
    rw [generate_tile, hov]
    simp only [Bool.false_eq_true, if_false]
    have hst : ({ st with probes := st.probes ++ [tileKey cfg z x (y : Int)] } :
        SeedState).store.probe (tileKey cfg z x (y : Int)) = some b := hhit
    rw [hst]
  · intro hov
    rw [generate_tile, hov]
    simp only [if_true]
    have h := fetchTile_fields env cfg tmsYMax x y z st
    exact ⟨h.1, h.2.1⟩

/-- Closed instantiation of `c7_skip_vs_overwrite`: a cached tile is skipped
without a request when `overwrite` is off, and fetched without a probe when
`overwrite` is on. -/
theorem c7_skip_vs_overwrite_witness :
    (JobConfig.overwrite
        { input := "d", output := "o", meshing := "grid", params := none,
          zoomLevels := [0], overwrite := false, port := 5580, requestCount := 10 } = false ∧
      Store.probe
        [(tileKey
            { input := "d", output := "o", meshing := "grid", params := none,
              zoomLevels := [0], overwrite := false, port := 5580, requestCount := 10 } 0 0 0,
          ([3] : TileBody))]
        (tileKey
          { input := "d", output := "o", meshing := "grid", params := none,
            zoomLevels := [0], overwrite := false, port := 5580, requestCount := 10 } 0 0 0) =
        some [3]) ∧
    generate_tile
        { http := fun _ => HttpResult.response 200 (BodyRead.ok [9]),
          shouldExit := fun _ => false, cacheFolderExists := true, mkdirOk := true,
          layer := none, tmsYMax := fun _ => 0 }
        { input := "d", output := "o", meshing := "grid", params := none,
          zoomLevels := [0], overwrite := false, port := 5580, requestCount := 10 }
        0 0 0 0
        (initState
          [(tileKey
              { input := "d", output := "o", meshing := "grid", params := none,
                zoomLevels := [0], overwrite := false, port := 5580, requestCount := 10 } 0 0 0,
            [3])]) =
      ({ initState
            [(tileKey
                { input := "d", output := "o", meshing := "grid", params := none,
                  zoomLevels := [0], overwrite := false, port := 5580, requestCount := 10 } 0 0 0,
              [3])] with
          probes :=
            [tileKey
              { input := "d", output := "o", meshing := "grid", params := none,
                zoomLevels := [0], overwrite := false, port := 5580, requestCount := 10 } 0 0 0] },
        none) := by
  refine ⟨⟨rfl, by decide⟩, ?_⟩
  have h := (c7_skip_vs_overwrite
    { http := fun _ => HttpResult.response 200 (BodyRead.ok [9]),
      shouldExit := fun _ => false, cacheFolderExists := true, mkdirOk := true,
      layer := none, tmsYMax := fun _ => 0 }
    { input := "d", output := "o", meshing := "grid", params := none,
      zoomLevels := [0], overwrite := false, port := 5580, requestCount := 10 }
    0 0 0 0
    (initState
      [(tileKey
          { input := "d", output := "o", meshing := "grid", params := none,
            zoomLevels := [0], overwrite := false, port := 5580, requestCount := 10 } 0 0 0,
        [3])])).1 rfl [3] (by decide)
  simpa using h

/-- Probing a store right after persisting under `k` finds exactly the
persisted bytes. -/
theorem Store.probe_persist_self (s : Store) (k : TileKey) (b : TileBody) :
    (s.persist k b).probe k = some b := by
  simp [Store.probe, Store.persist, List.find?]

/-- On the fetch path with an HTTP 200 answer, `generate_tile` persists the
body under the converted row `tmsYMax - y`. -/
theorem generate_tile_persist_converted (env : Env) (cfg : JobConfig) (tmsYMax x y z : Nat)
    (st : SeedState) (b : TileBody)
    (hfetch : cfg.overwrite = true ∨ st.store.probe (tileKey cfg z x (y : Int)) = none)
    (hresp : env.http (mkRequest cfg z x y) = HttpResult.response 200 (BodyRead.ok b)) :
    (generate_tile env cfg tmsYMax x y z st).2 = none ∧
    (generate_tile env cfg tmsYMax x y z st).1.persists =
      st.persists ++ [(tileKey cfg z x ((tmsYMax : Int) - (y : Int)), b)] ∧
    (generate_tile env cfg tmsYMax x y z st).1.store.probe
      (tileKey cfg z x ((tmsYMax : Int) - (y : Int))) = some b := by
  have hfetchTile : ∀ st' : SeedState, st'.persists = st.persists →
      (fetchTile env cfg tmsYMax x y z st').2 = none ∧
      (fetchTile env cfg tmsYMax x y z st').1.persists =
        st.persists ++ [(tileKey cfg z x ((tmsYMax : Int) - (y : Int)), b)] ∧
      (fetchTile env cfg tmsYMax x y z st').1.store.probe
        (tileKey cfg z x ((tmsYMax : Int) - (y : Int))) = some b := by
    intro st' hp
    rw [fetchTile, hresp]
    refine ⟨by simp, by simp [hp], by simp [Store.probe_persist_self]⟩
  rcases hfetch with hov | hmiss
  · rw [generate_tile, hov]
    simp only [if_true]
    exact hfetchTile st rfl
  · rw [generate_tile]
    by_cases hov : cfg.overwrite
    · simp only [hov, if_true]
      exact hfetchTile st rfl
    · simp only [hov, if_false]
      have hmiss' : ({ st with probes := st.probes ++ [tileKey cfg z x (y : Int)] } :
          SeedState).store.probe (tileKey cfg z x (y : Int)) = none := hmiss
      rw [hmiss']
      exact hfetchTile _ rfl

/-- **C8**: Row-index conversion — whenever the fetch path is reached
(`overwrite` set, or the probe missed) and the service answers HTTP 200
with body `b`, `generate_tile` persists the fully-read body `b` under the
store row `tmsYMax - y` (an `Int` subtraction, as in the script), and the
resulting store answers a probe at that converted key with `b`. -/
theorem c8_row_conversion (env : Env) (cfg : JobConfig) (tmsYMax x y z : Nat)
    (st : SeedState) (b : TileBody)
    (hfetch : cfg.overwrite = true ∨ st.store.probe (tileKey cfg z x (y : Int)) = none)
    (hresp : env.http (mkRequest cfg z x y) = HttpResult.response 200 (BodyRead.ok b)) :
    (generate_tile env cfg tmsYMax x y z st).2 = none ∧
    (generate_tile env cfg tmsYMax x y z st).1.persists =
      st.persists ++ [(tileKey cfg z x ((tmsYMax : Int) - (y : Int)), b)] ∧
    (generate_tile env cfg tmsYMax x y z st).1.store.probe
      (tileKey cfg z x ((tmsYMax : Int) - (y : Int))) = some b :=
  generate_tile_persist_converted env cfg tmsYMax x y z st b hfetch hresp

/-- Example configuration of a seeding job (CLI defaults, zoom level 3,
`overwrite` off). -/
def exCfg : JobConfig :=
  { input := "dataset", output := "cache", meshing := "grid", params := none,
    zoomLevels := [3], overwrite := false, port := 5580, requestCount := 10 }

/-- Example layer descriptor: zoom 3 has the one-tile rectangle
`startX = endX = 0`, `startY = endY = 2`. -/
def exLayer : LayerJson :=
  ⟨[⟨0, 0, 0, 0⟩, ⟨0, 0, 0, 0⟩, ⟨0, 0, 0, 0⟩, ⟨0, 0, 2, 2⟩]⟩

/-- Example healthy environment: every tile request gets HTTP 200 with body
`[7]`, no stop is ever requested, the cache folder exists, the layer
descriptor resolves, and `tms_y_max = 7` at every zoom. -/
def okEnv : Env :=
  { http := fun _ => HttpResult.response 200 (BodyRead.ok [7]),
    shouldExit := fun _ => false, cacheFolderExists := true, mkdirOk := true,
    layer := some exLayer, tmsYMax := fun _ => 7 }

/-- Closed instantiation of `c8_row_conversion` with `tmsYMax = 7`, `y = 2`:
the tile requested at row 2 is persisted at store row `7 - 2 = 5`. -/
theorem c8_row_conversion_witness :
    ((exCfg.overwrite = true ∨
        (initState []).store.probe (tileKey exCfg 3 0 ((2 : Nat) : Int)) = none) ∧
      okEnv.http (mkRequest exCfg 3 0 2) = HttpResult.response 200 (BodyRead.ok [7])) ∧
    ((generate_tile okEnv exCfg 7 0 2 3 (initState [])).2 = none ∧
      (generate_tile okEnv exCfg 7 0 2 3 (initState [])).1.persists =
        [] ++ [(tileKey exCfg 3 0 (((7 : Nat) : Int) - ((2 : Nat) : Int)), [7])] ∧
      (generate_tile okEnv exCfg 7 0 2 3 (initState [])).1.store.probe
        (tileKey exCfg 3 0 (((7 : Nat) : Int) - ((2 : Nat) : Int))) = some [7]) ∧
    ((7 : Nat) : Int) - ((2 : Nat) : Int) = (5 : Int) :=
  ⟨⟨Or.inr (by decide), rfl⟩,
    c8_row_conversion okEnv exCfg 7 0 2 3 (initState []) [7] (Or.inr (by decide)) rfl,
    by decide⟩

/-- **C10**: the probe key and the persist key address different rows — on
the no-overwrite fetch path with an HTTP 200 response, the probe is
recorded under the TMS row `y` while the persist is recorded under row
`tmsYMax - y`; whenever `y ≠ tmsYMax - y`, the probed key differs from the
persisted key. -/
theorem c10_probe_persist_key_mismatch (env : Env) (cfg : JobConfig) (tmsYMax x y z : Nat)
    (st : SeedState) (b : TileBody)
    (hov : cfg.overwrite = false)
    (hmiss : st.store.probe (tileKey cfg z x (y : Int)) = none)
    (hresp : env.http (mkRequest cfg z x y) = HttpResult.response 200 (BodyRead.ok b)) :
    (generate_tile env cfg tmsYMax x y z st).1.probes =
      st.probes ++ [tileKey cfg z x ((y : Nat) : Int)] ∧
    (generate_tile env cfg tmsYMax x y z st).1.persists =
      st.persists ++ [(tileKey cfg z x (((tmsYMax : Nat) : Int) - ((y : Nat) : Int)), b)] ∧
    (((y : Nat) : Int) ≠ ((tmsYMax : Nat) : Int) - ((y : Nat) : Int) →
      tileKey cfg z x ((y : Nat) : Int) ≠
        tileKey cfg z x (((tmsYMax : Nat) : Int) - ((y : Nat) : Int))) := by
  refine ⟨?_, ?_, ?_⟩
  · rw [generate_tile, hov]
    simp only [Bool.false_eq_true, if_false]
    have hmiss' : ({ st with probes := st.probes ++ [tileKey cfg z x (y : Int)] } :
        SeedState).store.probe (tileKey cfg z x (y : Int)) = none := hmiss
    rw [hmiss']
    have h := fetchTile_fields env cfg tmsYMax x y z
      { st with probes := st.probes ++ [tileKey cfg z x (y : Int)] }
    exact h.1
  · exact (generate_tile_persist_converted env cfg tmsYMax x y z st b (Or.inr hmiss) hresp).2.1
  · intro hy heq
    exact hy (congrArg TileKey.y heq)

/-- Closed instantiation of `c10_probe_persist_key_mismatch` with
`tmsYMax = 7`, `y = 2`: the key probed (row 2) is not the key persisted
(row 5). -/
theorem c10_probe_persist_key_mismatch_witness :
    (exCfg.overwrite = false ∧
      (initState []).store.probe (tileKey exCfg 3 0 ((2 : Nat) : Int)) = none ∧
      okEnv.http (mkRequest exCfg 3 0 2) = HttpResult.response 200 (BodyRead.ok [7])) ∧
    ((generate_tile okEnv exCfg 7 0 2 3 (initState [])).1.probes =
        [] ++ [tileKey exCfg 3 0 ((2 : Nat) : Int)] ∧
      (generate_tile okEnv exCfg 7 0 2 3 (initState [])).1.persists =
        [] ++ [(tileKey exCfg 3 0 (((7 : Nat) : Int) - ((2 : Nat) : Int)), [7])] ∧
      (((2 : Nat) : Int) ≠ ((7 : Nat) : Int) - ((2 : Nat) : Int) →
        tileKey exCfg 3 0 ((2 : Nat) : Int) ≠
          tileKey exCfg 3 0 (((7 : Nat) : Int) - ((2 : Nat) : Int)))) ∧
    ((2 : Nat) : Int) ≠ ((7 : Nat) : Int) - ((2 : Nat) : Int) :=
  ⟨⟨rfl, by decide, rfl⟩,
    c10_probe_persist_key_mismatch okEnv exCfg 7 0 2 3 (initState []) [7] rfl (by decide) rfl,
    by decide⟩

/-! ### Claim about the cache folder -/

/-- **C9**: Cache-folder failure is fatal and early — when the cache root
does not exist and cannot be created, `seed_cache` stops at
`create_cache_folder` with `sys.exit(1)` (a non-zero status), before the
layer descriptor is resolved and before any probe, fetch, or persist
happens. -/
theorem c9_cache_folder_fatal (env : Env) (cfg : JobConfig) (store : Store)
    (hexists : env.cacheFolderExists = false) (hmkdir : env.mkdirOk = false) :
    seed_cache env cfg (initState store) =
      ({ initState store with logs := [LogEvent.cacheFolderFailed] },
        some (RunError.sysExit 1)) ∧
    (seed_cache env cfg (initState store)).1.layerCalls = 0 ∧
    (seed_cache env cfg (initState store)).1.probes = [] ∧
    (seed_cache env cfg (initState store)).1.requests = [] ∧
    (seed_cache env cfg (initState store)).1.persists = [] ∧
    (1 : Nat) ≠ 0 := by
  have h : seed_cache env cfg (initState store) =
      ({ initState store with logs := [LogEvent.cacheFolderFailed] },
        some (RunError.sysExit 1)) := by
    rw [seed_cache, create_cache_folder, hexists, hmkdir]
    simp [initState]
  refine ⟨h, ?_, ?_, ?_, ?_, by omega⟩ <;> rw [h] <;> rfl

/-- Environment in which the cache folder is missing and cannot be created
(everything else healthy). -/
def noFolderEnv : Env :=
  { http := fun _ => HttpResult.response 200 (BodyRead.ok [7]),
    shouldExit := fun _ => false, cacheFolderExists := false, mkdirOk := false,
    layer := some exLayer, tmsYMax := fun _ => 7 }

/-- Closed instantiation of `c9_cache_folder_fatal`. -/
theorem c9_cache_folder_fatal_witness :
    (noFolderEnv.cacheFolderExists = false ∧ noFolderEnv.mkdirOk = false) ∧
    (seed_cache noFolderEnv exCfg (initState []) =
        ({ initState [] with logs := [LogEvent.cacheFolderFailed] },
          some (RunError.sysExit 1)) ∧
      (seed_cache noFolderEnv exCfg (initState [])).1.layerCalls = 0 ∧
      (seed_cache noFolderEnv exCfg (initState [])).1.probes = [] ∧
      (seed_cache noFolderEnv exCfg (initState [])).1.requests = [] ∧
      (seed_cache noFolderEnv exCfg (initState [])).1.persists = [] ∧
      (1 : Nat) ≠ 0) :=
  ⟨⟨rfl, rfl⟩, c9_cache_folder_fatal noFolderEnv exCfg [] rfl rfl⟩

/-! ### Loop lemmas for the completion-signal and batch-barrier claims -/


theorem levelLoop_futureSets (env : Env) (cfg : JobConfig) (tmsYMax z : Nat) :
    ∀ (coords tasks : List (Nat × Nat)) (st : SeedState),
      (levelLoop env cfg tmsYMax z coords tasks st).1.futureSets = st.futureSets := by
  intro coords
  induction coords with
  | nil =>
    intro tasks st
    rw [levelLoop]
    by_cases h : tasks.isEmpty <;> simp [h, runBatch_futureSets]
  | cons c rest ih =>
    intro tasks st
    rw [levelLoop]
    by_cases hstop : env.shouldExit st.checks
    · simp only [hstop, if_true]
      by_cases h : tasks.isEmpty <;> simp [h, runBatch_futureSets]
    · simp only [hstop, Bool.false_eq_true, if_false]
      by_cases hfull : cfg.requestCount ≤ (tasks ++ [c]).length
      · simp only [hfull, if_true]
        rcases hrb : runBatch env cfg tmsYMax z (tasks ++ [c])
            { st with checks := st.checks + 1 } with ⟨st2, err⟩
        have hfs : st2.futureSets = st.futureSets := by
          have h2 := runBatch_futureSets env cfg tmsYMax z (tasks ++ [c])
            { st with checks := st.checks + 1 }
          rw [hrb] at h2
          exact h2
        cases err with
        | none => simp only [ih, hfs]
        | some e => exact hfs
      · simp only [hfull, if_false]
        exact ih (tasks ++ [c]) { st with checks := st.checks + 1 }

theorem levelLoop_snd (env : Env) (cfg : JobConfig) (tmsYMax z : Nat)
    (hhttp : ∀ r, env.http r ≠ HttpResult.connectError) :
    ∀ (coords tasks : List (Nat × Nat)) (st : SeedState),
      (levelLoop env cfg tmsYMax z coords tasks st).2 = none := by
  intro coords
  induction coords with
  | nil =>
    intro tasks st
    rw [levelLoop]
    by_cases h : tasks.isEmpty <;> simp [h, runBatch_snd env cfg tmsYMax z _ _ hhttp]
  | cons c rest ih =>
    intro tasks st
    rw [levelLoop]
    by_cases hstop : env.shouldExit st.checks
    · simp only [hstop, if_true]
      by_cases h : tasks.isEmpty <;> simp [h, runBatch_snd env cfg tmsYMax z _ _ hhttp]
    · simp only [hstop, Bool.false_eq_true, if_false]
      by_cases hfull : cfg.requestCount ≤ (tasks ++ [c]).length
      · simp only [hfull, if_true]
        rcases hrb : runBatch env cfg tmsYMax z (tasks ++ [c])
            { st with checks := st.checks + 1 } with ⟨st2, err⟩
        have herr : err = none := by
          have h2 := runBatch_snd env cfg tmsYMax z (tasks ++ [c])
            { st with checks := st.checks + 1 } hhttp
          rw [hrb] at h2
          exact h2
        subst herr
        exact ih [] st2
      · simp only [hfull, if_false]
        exact ih (tasks ++ [c]) { st with checks := st.checks + 1 }

theorem generate_level_futureSets (env : Env) (cfg : JobConfig) (layer : LayerJson)
    (zoom : Nat) (st : SeedState) :
    (generate_level env cfg layer zoom st).1.futureSets = st.futureSets := by
  rw [generate_level]
  cases get_tile_range layer zoom with
  | none => rfl
  | some info => exact levelLoop_futureSets env cfg _ zoom _ [] st

theorem generate_level_snd (env : Env) (cfg : JobConfig) (layer : LayerJson) (zoom : Nat)
    (st : SeedState) (hz : (get_tile_range layer zoom).isSome = true)
    (hhttp : ∀ r, env.http r ≠ HttpResult.connectError) :
    (generate_level env cfg layer zoom st).2 = none := by
  rw [generate_level]
  cases h : get_tile_range layer zoom with
  | none => rw [h] at hz; exact absurd hz (by simp)
  | some info => exact levelLoop_snd env cfg _ zoom hhttp _ [] st

theorem zoomLoop_futureSets (env : Env) (cfg : JobConfig) (layer : LayerJson) :
    ∀ (zooms : List Nat) (st : SeedState),
      (zoomLoop env cfg layer zooms st).1.futureSets = st.futureSets := by
  intro zooms
  induction zooms with
  | nil => intro st; rfl
  | cons zoom rest ih =>
    intro st
    rw [zoomLoop]
    by_cases hstop : env.shouldExit st.checks
    · simp [hstop]
    · simp only [hstop, Bool.false_eq_true, if_false]
      rcases hgl : generate_level env cfg layer zoom { st with checks := st.checks + 1 }
        with ⟨st2, err⟩
      have hfs : st2.futureSets = st.futureSets := by
        have h2 := generate_level_futureSets env cfg layer zoom
          { st with checks := st.checks + 1 }
        rw [hgl] at h2
        exact h2
      cases err with
      | none => simp only [ih, hfs]
      | some e => exact hfs

theorem zoomLoop_snd (env : Env) (cfg : JobConfig) (layer : LayerJson)
    (hhttp : ∀ r, env.http r ≠ HttpResult.connectError) :
    ∀ (zooms : List Nat) (st : SeedState),
      (∀ zoom ∈ zooms, (get_tile_range layer zoom).isSome = true) →
      (zoomLoop env cfg layer zooms st).2 = none := by
  intro zooms
  induction zooms with
  | nil => intro st _; rfl
  | cons zoom rest ih =>
    intro st hz
    rw [zoomLoop]
    by_cases hstop : env.shouldExit st.checks
    · simp [hstop]
    · simp only [hstop, Bool.false_eq_true, if_false]
      rcases hgl : generate_level env cfg layer zoom { st with checks := st.checks + 1 }
        with ⟨st2, err⟩
      have herr : err = none := by
        have h2 := generate_level_snd env cfg layer zoom { st with checks := st.checks + 1 }
          (hz zoom (List.mem_cons_self zoom rest)) hhttp
        rw [hgl] at h2
        exact h2
      subst herr
      exact ih st2 fun zm hm => hz zm (List.mem_cons_of_mem zoom hm)

/-- On any run, `seed_cache` either never touches the completion future (a
fatal error escaped first) or sets it exactly once. -/
theorem seed_cache_futureSets_cases (env : Env) (cfg : JobConfig) (st : SeedState) :
    (seed_cache env cfg st).1.futureSets = st.futureSets ∨
    (seed_cache env cfg st).1.futureSets = st.futureSets + 1 := by
  rcases hcf : create_cache_folder env st with ⟨st1, err1⟩
  have hst1 : st1.futureSets = st.futureSets := by
    rw [create_cache_folder] at hcf
    by_cases h1 : env.cacheFolderExists
    · simp [h1] at hcf
      rw [← hcf.1]
    · by_cases h2 : env.mkdirOk <;> simp [h1, h2] at hcf <;> rw [← hcf.1]
  cases err1 with
  | some e =>
    left
    simp [seed_cache, hcf, hst1]
  | none =>
    cases hl : env.layer with
    | none =>
      left
      simp [seed_cache, hcf, hl, hst1]
    | some layer =>
      rcases hzl : zoomLoop env cfg layer cfg.zoomLevels
          { st1 with layerCalls := st1.layerCalls + 1 } with ⟨st3, err3⟩
      have hst3 : st3.futureSets = st.futureSets := by
        have h2 := zoomLoop_futureSets env cfg layer cfg.zoomLevels
          { st1 with layerCalls := st1.layerCalls + 1 }
        rw [hzl] at h2
        rw [h2]
        exact hst1
      cases err3 with
      | some e =>
        left
        simp [seed_cache, hcf, hl, hzl, hst3]
      | none =>
        right
        simp [seed_cache, hcf, hl, hzl, hst3]

/-- **C3**: Completion signalling — whenever the zoom-level loop exits
normally (by exhausting the zoom levels or by an external stop request,
i.e. under an environment in which no exception escapes a level: the
cache folder is available, the layer descriptor resolves, every requested
zoom is present and no connection error is raised), `seed_cache` returns
without exception and `done_future.set_result` has been called exactly
once — whatever the stop schedule `env.shouldExit` is.  Moreover, on every
run whatsoever the future-set counter never decreases: once set, the
future is never unset. -/
theorem c3_completion_signal (env : Env) (cfg : JobConfig) (st : SeedState)
    (layer : LayerJson)
    (hfolder : env.cacheFolderExists = true ∨ env.mkdirOk = true)
    (hlayer : env.layer = some layer)
    (hz : ∀ zoom ∈ cfg.zoomLevels, (get_tile_range layer zoom).isSome = true)
    (hhttp : ∀ r, env.http r ≠ HttpResult.connectError) :
    ((seed_cache env cfg st).2 = none ∧
      (seed_cache env cfg st).1.futureSets = st.futureSets + 1) ∧
    (∀ (env' : Env) (cfg' : JobConfig) (st' : SeedState),
      st'.futureSets ≤ (seed_cache env' cfg' st').1.futureSets) := by
  have hmono : ∀ (env' : Env) (cfg' : JobConfig) (st' : SeedState),
      st'.futureSets ≤ (seed_cache env' cfg' st').1.futureSets := by
    intro env' cfg' st'
    rcases seed_cache_futureSets_cases env' cfg' st' with h | h <;> omega
  have hcf : create_cache_folder env st = (st, none) := by
    rw [create_cache_folder]
    rcases hfolder with h | h
    · rw [h]
      simp
    · rw [h]
      by_cases h1 : env.cacheFolderExists <;> simp [h1]
  refine ⟨?_, hmono⟩
  rcases hzl : zoomLoop env cfg layer cfg.zoomLevels
      { st with layerCalls := st.layerCalls + 1 } with ⟨st3, err3⟩
  have herr : err3 = none := by
    have h2 := zoomLoop_snd env cfg layer hhttp cfg.zoomLevels
      { st with layerCalls := st.layerCalls + 1 } hz
    rw [hzl] at h2
    exact h2
  subst herr
  have hfs : st3.futureSets = st.futureSets := by
    have h2 := zoomLoop_futureSets env cfg layer cfg.zoomLevels
      { st with layerCalls := st.layerCalls + 1 }
    rw [hzl] at h2
    exact h2
  constructor
  · simp [seed_cache, hcf, hlayer, hzl]
  · simp [seed_cache, hcf, hlayer, hzl, hfs]

/-- Closed instantiation of `c3_completion_signal` on the healthy example
environment: the future-set counter ends at exactly 1. -/
theorem c3_completion_signal_witness :
    ((okEnv.cacheFolderExists = true ∨ okEnv.mkdirOk = true) ∧
      okEnv.layer = some exLayer ∧
      (∀ zoom ∈ exCfg.zoomLevels, (get_tile_range exLayer zoom).isSome = true) ∧
      (∀ r, okEnv.http r ≠ HttpResult.connectError)) ∧
    ((seed_cache okEnv exCfg (initState [])).2 = none ∧
      (seed_cache okEnv exCfg (initState [])).1.futureSets = (initState []).futureSets + 1) :=
  ⟨⟨Or.inl rfl, rfl, by decide, fun r h => nomatch h⟩,
    (c3_completion_signal okEnv exCfg (initState []) exLayer (Or.inl rfl) rfl (by decide)
      (fun r h => nomatch h)).1⟩

/-- Invariant of the batched fetch loop under an uninterrupted, healthy run:
the gathers appended by `levelLoop` partition `tasks ++ coords` in order
into consecutive nonempty batches of at most `request_count` coordinates,
all of them full except possibly the last. -/
theorem levelLoop_batches (env : Env) (cfg : JobConfig) (tmsYMax z : Nat)
    (hk : 1 ≤ cfg.requestCount)
    (hstop : ∀ n, env.shouldExit n = false)
    (hhttp : ∀ r, env.http r ≠ HttpResult.connectError) :
    ∀ (coords tasks : List (Nat × Nat)) (st : SeedState),
      tasks.length < cfg.requestCount →
      ∃ gs : List (List (Nat × Nat)),
        (levelLoop env cfg tmsYMax z coords tasks st).1.gathers = st.gathers ++ gs ∧
        gs.flatten = tasks ++ coords ∧
        (∀ b ∈ gs, 0 < b.length ∧ b.length ≤ cfg.requestCount) ∧
        (∀ (i : Nat) (h : i < gs.length), i + 1 < gs.length →
          (gs.get ⟨i, h⟩).length = cfg.requestCount) := by
  intro coords
  induction coords with
  | nil =>
    intro tasks st hlt
    rw [levelLoop]
    by_cases h : tasks.isEmpty
    · simp only [h, if_true]
      have htasks : tasks = [] := List.isEmpty_iff.mp h
      exact ⟨[], by simp, by simp [htasks], by simp, by simp⟩
    · simp only [h, Bool.false_eq_true, if_false]
      have hne : tasks ≠ [] := by
        intro hnil
        rw [hnil] at h
        simp at h
      have hpos : 0 < tasks.length := List.length_pos.mpr hne
      refine ⟨[tasks], runBatch_gathers env cfg tmsYMax z tasks st, by simp, ?_, ?_⟩
      · intro b hb
        rw [List.mem_singleton] at hb
        rw [hb]
        exact ⟨hpos, by omega⟩
      · intro i hi h1
        simp at h1
  | cons c rest ih =>
    intro tasks st hlt
    rw [levelLoop]
    simp only [hstop st.checks, Bool.false_eq_true, if_false]
    by_cases hfull : cfg.requestCount ≤ (tasks ++ [c]).length
    · simp only [hfull, if_true]
      have hlen : (tasks ++ [c]).length = cfg.requestCount := by
        rw [List.length_append, List.length_singleton] at hfull ⊢
        omega
      rcases hrb : runBatch env cfg tmsYMax z (tasks ++ [c])
          { st with checks := st.checks + 1 } with ⟨st2, err⟩
      have herr : err = none := by
        have h2 := runBatch_snd env cfg tmsYMax z (tasks ++ [c])
          { st with checks := st.checks + 1 } hhttp
        rw [hrb] at h2
        exact h2
      subst herr
      have hg2 : st2.gathers = st.gathers ++ [tasks ++ [c]] := by
        have h2 := runBatch_gathers env cfg tmsYMax z (tasks ++ [c])
          { st with checks := st.checks + 1 }
        rw [hrb] at h2
        exact h2
      obtain ⟨gs', hgath, hflat, hbnd, hfullpre⟩ :=
        ih [] st2 (by simp only [List.length_nil]; omega)
      refine ⟨(tasks ++ [c]) :: gs', ?_, ?_, ?_, ?_⟩
      · rw [hgath, hg2]
        simp
      · rw [List.flatten_cons, hflat]
        simp
      · intro b hb
        rcases List.mem_cons.mp hb with hb | hb
        · rw [hb, hlen]
          omega
        · exact hbnd b hb
      · intro i hi h1
        cases i with
        | zero => exact hlen
        | succ j =>
          have hj : j < gs'.length := by
            simp only [List.length_cons] at hi
            omega
          have h2 : j + 1 < gs'.length := by
            simp only [List.length_cons] at h1
            omega
          have h3 := hfullpre j hj h2
          simpa using h3
    · simp only [hfull, if_false]
      have hlt1 : (tasks ++ [c]).length < cfg.requestCount := by omega
      obtain ⟨gs, hgath, hflat, hbnd, hfullpre⟩ :=
        ih (tasks ++ [c]) { st with checks := st.checks + 1 } hlt1
      refine ⟨gs, hgath, ?_, hbnd, hfullpre⟩
      rw [hflat]
      simp

/-- **C4**: Batch barrier — on a zoom level with concurrency width
`k = request_count ≥ 1` and `n > k` coordinates, run without a stop request
and without connection errors, `generate_level` performs its fetches in a
sequence of gathers (awaited one after another: gather `N+1` is only
dispatched after every task of gather `N` has resolved, so only the tasks
of one gather are ever in flight together) whose batches, in order,
partition the Z-order traversal exactly: each batch is nonempty with at
most `k` coordinates, every batch except the last has exactly `k`, and
with `n > k` there are at least two batches (a final, possibly partial,
batch after the full ones). -/
theorem c4_batch_barrier (env : Env) (cfg : JobConfig) (layer : LayerJson) (zoom : Nat)
    (st : SeedState) (info : ZoomRangeInfo)
    (hinfo : get_tile_range layer zoom = some info)
    (hk : 1 ≤ cfg.requestCount)
    (hstop : ∀ n, env.shouldExit n = false)
    (hhttp : ∀ r, env.http r ≠ HttpResult.connectError)
    (hg : st.gathers = [])
    (hn : cfg.requestCount <
      (generate_z_order_grid (List.range' info.startX (info.endX + 1 - info.startX))
        (List.range' info.startY (info.endY + 1 - info.startY))).length) :
    (generate_level env cfg layer zoom st).2 = none ∧
    (generate_level env cfg layer zoom st).1.gathers.flatten =
      generate_z_order_grid (List.range' info.startX (info.endX + 1 - info.startX))
        (List.range' info.startY (info.endY + 1 - info.startY)) ∧
    (∀ b ∈ (generate_level env cfg layer zoom st).1.gathers,
      0 < b.length ∧ b.length ≤ cfg.requestCount) ∧
    (∀ (i : Nat) (h : i < (generate_level env cfg layer zoom st).1.gathers.length),
      i + 1 < (generate_level env cfg layer zoom st).1.gathers.length →
      ((generate_level env cfg layer zoom st).1.gathers.get ⟨i, h⟩).length =
        cfg.requestCount) ∧
    1 < (generate_level env cfg layer zoom st).1.gathers.length := by
  have hunfold : generate_level env cfg layer zoom st =
      levelLoop env cfg (env.tmsYMax zoom) zoom
        (generate_z_order_grid (List.range' info.startX (info.endX + 1 - info.startX))
          (List.range' info.startY (info.endY + 1 - info.startY))) [] st := by
    rw [generate_level, hinfo]
  rw [hunfold]
  obtain ⟨gs, hgath, hflat, hbnd, hfullpre⟩ :=
    levelLoop_batches env cfg (env.tmsYMax zoom) zoom hk hstop hhttp
      (generate_z_order_grid (List.range' info.startX (info.endX + 1 - info.startX))
        (List.range' info.startY (info.endY + 1 - info.startY))) [] st
      (by simp only [List.length_nil]; omega)
  rw [hg] at hgath
  simp only [List.nil_append] at hgath hflat
  have hlen2 : 1 < gs.length := by
    rcases gs with _ | ⟨b, gs'⟩
    · exfalso
      simp only [List.flatten_nil] at hflat
      rw [← hflat] at hn
      simp only [List.length_nil] at hn
      omega
    · rcases gs' with _ | ⟨b2, gs''⟩
      · exfalso
        simp only [List.flatten_cons, List.flatten_nil, List.append_nil] at hflat
        have hb := hbnd b (List.mem_singleton.mpr rfl)
        rw [hflat] at hb
        omega
      · simp
  rw [hgath]
  exact ⟨levelLoop_snd env cfg _ zoom hhttp _ [] st, hflat, hbnd, hfullpre, hlen2⟩

/-- Configuration with concurrency width 2 for the batch-barrier witness. -/
def c4Cfg : JobConfig :=
  { input := "dataset", output := "cache", meshing := "grid", params := none,
    zoomLevels := [0], overwrite := false, port := 5580, requestCount := 2 }

/-- Layer descriptor whose zoom 0 holds the 5×1 rectangle x ∈ [0,4], y = 0. -/
def c4Layer : LayerJson := ⟨[⟨0, 4, 0, 0⟩]⟩

/-- Healthy environment for the batch-barrier witness. -/
def c4Env : Env :=
  { http := fun _ => HttpResult.response 200 (BodyRead.ok [7]),
    shouldExit := fun _ => false, cacheFolderExists := true, mkdirOk := true,
    layer := some c4Layer, tmsYMax := fun _ => 0 }

/-- Closed instantiation of `c4_batch_barrier`: 5 coordinates at width 2
are gathered as three consecutive batches (2, 2 and a final partial 1). -/
theorem c4_batch_barrier_witness :
    (get_tile_range c4Layer 0 = some ⟨0, 4, 0, 0⟩ ∧
      1 ≤ c4Cfg.requestCount ∧
      (∀ n, c4Env.shouldExit n = false) ∧
      (∀ r, c4Env.http r ≠ HttpResult.connectError) ∧
      (initState []).gathers = [] ∧
      c4Cfg.requestCount <
        (generate_z_order_grid
          (List.range' (ZoomRangeInfo.startX ⟨0, 4, 0, 0⟩)
            (ZoomRangeInfo.endX ⟨0, 4, 0, 0⟩ + 1 - ZoomRangeInfo.startX ⟨0, 4, 0, 0⟩))
          (List.range' (ZoomRangeInfo.startY ⟨0, 4, 0, 0⟩)
            (ZoomRangeInfo.endY ⟨0, 4, 0, 0⟩ + 1 - ZoomRangeInfo.startY ⟨0, 4, 0, 0⟩))).length) ∧
    ((generate_level c4Env c4Cfg c4Layer 0 (initState [])).2 = none ∧
      (generate_level c4Env c4Cfg c4Layer 0 (initState [])).1.gathers.flatten =
        generate_z_order_grid
          (List.range' (ZoomRangeInfo.startX ⟨0, 4, 0, 0⟩)
            (ZoomRangeInfo.endX ⟨0, 4, 0, 0⟩ + 1 - ZoomRangeInfo.startX ⟨0, 4, 0, 0⟩))
          (List.range' (ZoomRangeInfo.startY ⟨0, 4, 0, 0⟩)
            (ZoomRangeInfo.endY ⟨0, 4, 0, 0⟩ + 1 - ZoomRangeInfo.startY ⟨0, 4, 0, 0⟩)) ∧
      (∀ b ∈ (generate_level c4Env c4Cfg c4Layer 0 (initState [])).1.gathers,
        0 < b.length ∧ b.length ≤ c4Cfg.requestCount) ∧
      (∀ (i : Nat) (h : i < (generate_level c4Env c4Cfg c4Layer 0 (initState [])).1.gathers.length),
        i + 1 < (generate_level c4Env c4Cfg c4Layer 0 (initState [])).1.gathers.length →
        ((generate_level c4Env c4Cfg c4Layer 0 (initState [])).1.gathers.get ⟨i, h⟩).length =
          c4Cfg.requestCount) ∧
      1 < (generate_level c4Env c4Cfg c4Layer 0 (initState [])).1.gathers.length) := by
  have hhttp : ∀ r, c4Env.http r ≠ HttpResult.connectError := by
    intro r h
    simp [c4Env] at h
  exact ⟨⟨rfl, by decide, fun _ => rfl, hhttp, rfl, by decide⟩,
    c4_batch_barrier c4Env c4Cfg c4Layer 0 (initState []) ⟨0, 4, 0, 0⟩ rfl (by decide)
      (fun _ => rfl) hhttp rfl (by decide)⟩

/-! ### Counter-scenarios: the probe/persist row mismatch and the escaping
connection error -/

/-- First seeding run of `exCfg` over an empty cache in the healthy
environment (the single tile is (z=3, x=0, y=2), `tms_y_max = 7`). -/
def c1FirstRun : SeedState × Option RunError := seed_cache okEnv exCfg (initState [])

/-- Second, identical no-overwrite run over the cache left by the first
run. -/
def c1SecondRun : SeedState × Option RunError :=
  seed_cache okEnv exCfg (initState c1FirstRun.1.store)

/-- **C1** (code bug witness): the first run fetches tile (z=3, x=0, y=2)
and persists it under store row `7 - 2 = 5`; the second no-overwrite run
probes under row 2, misses, and issues one more HTTP generation request for
that very tile — not the zero requests the idempotence claim demands. -/
theorem c1_idempotence_failure :
    c1FirstRun.2 = none ∧
    c1FirstRun.1.persists = [(tileKey exCfg 3 0 5, [7])] ∧
    c1FirstRun.1.requests = [mkRequest exCfg 3 0 2] ∧
    c1SecondRun.2 = none ∧
    c1SecondRun.1.requests = [mkRequest exCfg 3 0 2] ∧
    c1SecondRun.1.requests.length ≠ 0 := by decide

/-- Environment in which every tile request raises a connection error
(e.g. the co-located generation server is not accepting connections). -/
def connErrEnv : Env :=
  { http := fun _ => HttpResult.connectError,
    shouldExit := fun _ => false, cacheFolderExists := true, mkdirOk := true,
    layer := some exLayer, tmsYMax := fun _ => 7 }

/-- **C2** (code bug witness): a connection error raised by the GET —
which happens outside the `try`/`except` of `generate_tile` — escapes the
fetch worker as an exception without being logged, propagates through the
batch gather and the zoom loop, aborts `seed_cache`, and leaves the
completion future unset. -/
theorem c2_transport_error_escapes :
    (generate_tile connErrEnv exCfg 7 0 2 3 (initState [])).2 =
      some (RunError.transport (mkRequest exCfg 3 0 2)) ∧
    (generate_tile connErrEnv exCfg 7 0 2 3 (initState [])).1.probes =
      [tileKey exCfg 3 0 2] ∧
    (generate_tile connErrEnv exCfg 7 0 2 3 (initState [])).1.requests =
      [mkRequest exCfg 3 0 2] ∧
    (generate_tile connErrEnv exCfg 7 0 2 3 (initState [])).1.persists = [] ∧
    (generate_tile connErrEnv exCfg 7 0 2 3 (initState [])).1.logs = [] ∧
    (seed_cache connErrEnv exCfg (initState [])).2 =
      some (RunError.transport (mkRequest exCfg 3 0 2)) ∧
    (seed_cache connErrEnv exCfg (initState [])).1.futureSets = 0 := by decide
